import Mathlib

/-!
Shallow embedding of `setup.py`'s `add_requirements_to_pyproject` from the
Python-project-template repository, together with theorems settling the
frozen claims about its specification.

The embedding models:
  - the requirement-line parser (Python `str.strip`, `f.readlines`, and the
    anchored regex `^([a-zA-Z0-9][a-zA-Z0-9._-]*)([=><!~]+.*)?$`),
  - the manifest (pyproject.toml) load / clear / persist logic,
  - the per-requirement `uv add` loop with its fail-fast error handling,
  - the skeleton materializer (directories created with `exist_ok=True`,
    files written only when absent),
  - the surrounding try/except structure, as explicit `Except` plumbing,
    so that "no exception escapes" is a provable statement.
-/

/-! Character classes used by `setup.py`. -/

/-- Whitespace characters removed by Python `str.strip()` (ASCII fragment;
the requirement files in scope are ASCII). -/
def isPySpace (c : Char) : Bool :=
  c = ' ' || c = '\t' || c = '\n' || c = '\r' || c = '\x0b' || c = '\x0c'

/-- Characters allowed after the first character of a package name,
the regex class `[a-zA-Z0-9._-]` (line 126 of setup.py).
`Char.isAlphanum` is the ASCII `[a-zA-Z0-9]`. -/
def isNameChar (c : Char) : Bool :=
  c.isAlphanum || c = '.' || c = '_' || c = '-'

/-- Characters opening a version constraint, the regex class `[=><!~]`
(line 126 of setup.py). -/
def isOpChar (c : Char) : Bool :=
  c = '=' || c = '>' || c = '<' || c = '!' || c = '~'

/-- Python `str.strip()` on the character list: drop leading and trailing
whitespace. -/
def stripList (l : List Char) : List Char :=
  ((l.dropWhile isPySpace).reverse.dropWhile isPySpace).reverse

/-- Python `line.strip()` (line 133 of setup.py). -/
def pyStrip (s : String) : String :=
  String.mk (stripList s.data)

/-- Helper for `readLines`: the accumulator holds the current (reversed)
line prefix; a newline closes a line and is kept, Python-readlines style. -/
def readLinesAux : List Char → List Char → List String
  | acc, [] => if acc = [] then [] else [String.mk acc.reverse]
  | acc, c :: cs =>
    if c = '\n' then String.mk (acc.reverse ++ ['\n']) :: readLinesAux [] cs
    else readLinesAux (c :: acc) cs

/-- Python `f.readlines()` (line 120 of setup.py): split the file content
into lines, each line keeping its terminating newline; a last line without
a newline is kept as-is, and empty content yields no lines. -/
def readLines (s : String) : List String :=
  readLinesAux [] s.data

/-- Embedding of `re.match` for the anchored pattern
`^([a-zA-Z0-9][a-zA-Z0-9._-]*)([=><!~]+.*)?$` (line 126 of setup.py),
on newline-free input (the code only applies the pattern to stripped
readlines output, which never contains a newline).

Matching semantics: group 1 greedily takes the maximal prefix of name
characters (first character alphanumeric); the optional group 2 then must
cover the whole rest, which works exactly when the rest is empty (group 2
absent, `none`) or starts with a constraint operator character (group 2 is
the whole rest).  Backtracking to a shorter group 1 can never succeed
because the name-character class and the operator class are disjoint, so a
shortened split leaves a non-empty rest starting with a name character. -/
def matchPackage (s : String) : Option (String × Option String) :=
  match s.data with
  | [] => none
  | c :: rest =>
    if c.isAlphanum then
      match rest.dropWhile isNameChar with
      | [] => some (String.mk (c :: rest.takeWhile isNameChar), none)
      | d :: t =>
        if isOpChar d then
          some (String.mk (c :: rest.takeWhile isNameChar), some (String.mk (d :: t)))
        else none
    else none

/-- Outcome of the per-line parsing in the loop of lines 132-147 of
setup.py: blank/comment lines are skipped silently, lines failing the
pattern are skipped with a diagnostic, and accepted lines yield the
`package_spec` string passed to `uv add`. -/
inductive ParseResult
  | skip
  | invalid
  | req (spec : String)
deriving DecidableEq

/-- Lines 133-147 of setup.py: strip the line, skip it when empty or when
it starts with `#`, otherwise match the package pattern; on failure report
the line invalid, on success rebuild `package_spec` as the name
concatenated with the version constraint when one is present. -/
def parseLine (line : String) : ParseResult :=
  let l := pyStrip line
  if l.data = [] then .skip
  else if l.data.head? = some '#' then .skip
  else
    match matchPackage l with
    | none => .invalid
    | some (nm, some vc) => .req (nm ++ vc)
    | some (nm, none) => .req nm

/-- Projection extracting the accepted requirement of a parse outcome. -/
def ParseResult.spec? : ParseResult → Option String
  | .req s => some s
  | _ => none

/-- The sequence of accepted requirement specs of a requirement file, in
input order: the parser part of the loop of lines 132-147 of setup.py. -/
def parseRequirements (lines : List String) : List String :=
  lines.filterMap (fun l => (parseLine l).spec?)

/-- The full loop of lines 132-161 of setup.py, interleaving parsing and
installation.  `install i s` is the exit-status oracle of the external
`uv add s` command for the i-th invocation (`true` = exit status zero).
Returns the list of specs actually passed to `uv add`, in order, and the
loop outcome: `false` when a command failed (the `return False` of line
161), in which case the loop stops at once. -/
def processLines (install : Nat → String → Bool) : Nat → List String → List String × Bool
  | _, [] => ([], true)
  | i, l :: ls =>
    match parseLine l with
    | .skip => processLines install i ls
    | .invalid => processLines install i ls
    | .req s =>
      if install i s then
        let r := processLines install (i + 1) ls
        (s :: r.1, r.2)
      else ([s], false)

/-- The installation loop restricted to the already-parsed specs: invoke
the command per spec, stop at the first failure. `processLines` factors
through this (see `processLines_eq_installAll`). -/
def installAll (install : Nat → String → Bool) : Nat → List String → List String × Bool
  | _, [] => ([], true)
  | i, s :: ss =>
    if install i s then
      let r := installAll install (i + 1) ss
      (s :: r.1, r.2)
    else ([s], false)

/-! Manifest model (pyproject.toml). -/

/-- The fragment of the pyproject `[project]` table that setup.py touches:
its name, version and dependency list, each possibly absent, as in a
Python dict. -/
structure Project where
  name : Option String
  version : Option String
  dependencies : Option (List String)
deriving DecidableEq

/-- The empty dict inserted by `pyproject.setdefault('project', {})`. -/
def Project.empty : Project := ⟨none, none, none⟩

/-- The loaded pyproject.toml document: a possibly missing `[project]`
table. -/
structure Manifest where
  project : Option Project
deriving DecidableEq

/-- The minimal manifest synthesized at line 101 of setup.py when
pyproject.toml is absent. -/
def defaultManifest : Manifest :=
  { project := some { name := some "my-project", version := some "0.1.0",
                      dependencies := some [] } }

/-- Lines 104-105 of setup.py: `setdefault('project', {})`,
`setdefault('dependencies', [])`, then assign the dependency list to the
empty list.  All other fields of the project table are preserved. -/
def clearManifest (m : Manifest) : Manifest :=
  { m with project := some { (m.project.getD Project.empty) with dependencies := some [] } }

/-! File-system model. -/

/-- Contents of files written by the skeleton materializer.  The five
template constructors stand for the five distinct literal template strings
of setup.py (`config_template`, `logging_template_front`,
`logging_template_back`, `exceptions_template_front`,
`exceptions_template_back`); `user` stands for arbitrary pre-existing or
hand-edited content.  No claim depends on the template bytes, only on
which file gets which template and on content preservation. -/
inductive FileContent
  | empty
  | configTemplate
  | loggingFront
  | loggingBack
  | exceptionsFront
  | exceptionsBack
  | user (s : String)
deriving DecidableEq

/-- Lookup in an association list of files keyed by path. -/
def lookupAssoc : List (String × FileContent) → String → Option FileContent
  | [], _ => none
  | (q, d) :: t, p => if q = p then some d else lookupAssoc t p

/-- Update-or-append in an association list of files keyed by path. -/
def writeAssoc : List (String × FileContent) → String → FileContent → List (String × FileContent)
  | [], p, c => [(p, c)]
  | (q, d) :: t, p, c =>
    if q = p then (q, c) :: t else (q, d) :: writeAssoc t p c

/-- The file system visible to setup.py: files (path to content) and the
set of existing directories.  Paths are strings relative to the working
directory, joined with `/` as `os.path.join` does on the target platform. -/
structure FS where
  files : List (String × FileContent)
  dirs : List String
deriving DecidableEq

/-- Content of a file, when present. -/
def FS.lookupFile (fs : FS) (p : String) : Option FileContent :=
  lookupAssoc fs.files p

/-- Python `os.path.exists` restricted to the file paths setup.py guards
its writes with (those paths are never directories). -/
def FS.fileExists (fs : FS) (p : String) : Bool :=
  (fs.lookupFile p).isSome

/-- Python `open(p, 'w')` followed by a write: create or overwrite. -/
def FS.write (fs : FS) (p : String) (c : FileContent) : FS :=
  { fs with files := writeAssoc fs.files p c }

/-- Python `os.makedirs(d, exist_ok=True)`: no error and no change when
the directory already exists. -/
def FS.makedirs (fs : FS) (d : String) : FS :=
  if d ∈ fs.dirs then fs else { fs with dirs := fs.dirs ++ [d] }

/-- The guarded write pattern of setup.py (`if not os.path.exists(p):`
followed by `open(p, 'w')`): write only when the file is absent. -/
def ensureFile (fs : FS) (p : String) (c : FileContent) : FS :=
  if fs.fileExists p then fs else fs.write p c

/-- The empty file system. -/
def emptyFS : FS := ⟨[], []⟩

/-- The subdirectory descriptor of lines 247-253 of setup.py: each
subdirectory of `Front`/`Back` with its extra Python files. -/
def subdirsSpec : List (String × List String) :=
  [("components", ["StageOne.py", "StageTwo.py", "StageThree.py"]),
   ("Logging", ["logging.py"]),
   ("Exceptions", ["exceptions.py"]),
   ("Constants", ["constants.py"]),
   ("Utils", ["utils.py"])]

/-- Line 244 of setup.py. -/
def mainSubdirs : List String := ["Front", "Back"]

/-- Lines 484-490 of setup.py: which template body goes into which extra
file, depending on the logical side. -/
def templateFor (main file : String) : FileContent :=
  if file = "logging.py" then
    (if main = "Front" then .loggingFront else .loggingBack)
  else if file = "exceptions.py" then
    (if main = "Front" then .exceptionsFront else .exceptionsBack)
  else .empty

/-- Block 5 of setup.py (lines 175-493), the skeleton materializer, as a
pure file-system transformer (the run in which no I/O operation raises):
create `configs` with `configuration.yml`, `src` with `__init__.py`, then
for each of `Front` and `Back` the directory, its `__init__.py`, and the
five subdirectories with their `__init__.py` and extra files, every file
write guarded by an existence check and every directory created with
`exist_ok=True`. -/
def createSkeleton (fs : FS) : FS :=
  let fs := fs.makedirs "configs"
  let fs := ensureFile fs "configs/configuration.yml" .configTemplate
  let fs := fs.makedirs "src"
  let fs := ensureFile fs "src/__init__.py" .empty
  mainSubdirs.foldl (fun fs main =>
    let mp := "src/" ++ main
    let fs := fs.makedirs mp
    let fs := ensureFile fs (mp ++ "/__init__.py") .empty
    subdirsSpec.foldl (fun fs sd =>
      let sp := mp ++ "/" ++ sd.1
      let fs := fs.makedirs sp
      let fs := ensureFile fs (sp ++ "/__init__.py") .empty
      sd.2.foldl (fun fs f => ensureFile fs (sp ++ "/" ++ f) (templateFor main f)) fs)
      fs)
    fs

/-! Linearized skeleton operations, for reasoning about block 5 uniformly
and for threading the possibility of an I/O error through it. -/

/-- One file-system operation of block 5 of setup.py. -/
inductive SkelOp
  | mkdir (d : String)
  | ensure (p : String) (c : FileContent)
deriving DecidableEq

/-- Apply one skeleton operation. -/
def applyOp (fs : FS) : SkelOp → FS
  | .mkdir d => fs.makedirs d
  | .ensure p c => ensureFile fs p c

/-- Run skeleton operations in order (the run without I/O errors). -/
def runOps (fs : FS) : List SkelOp → FS
  | [] => fs
  | op :: ops => runOps (applyOp fs op) ops

/-- Run skeleton operations, the operation numbered `failAt` (when any)
raising an I/O error: the pair holds the file system built so far and the
exception, if one was raised.  This models block 5's internal try body. -/
def runOpsE (fs : FS) (failAt : Option Nat) (i : Nat) : List SkelOp → FS × Bool
  | [] => (fs, true)
  | op :: ops =>
    if failAt = some i then (fs, false)
    else runOpsE (applyOp fs op) failAt (i + 1) ops

/-- The operations of block 5 of setup.py, in source order. -/
def skeletonOps : List SkelOp :=
  [.mkdir "configs",
   .ensure "configs/configuration.yml" .configTemplate,
   .mkdir "src",
   .ensure "src/__init__.py" .empty,
   .mkdir "src/Front",
   .ensure "src/Front/__init__.py" .empty,
   .mkdir "src/Front/components",
   .ensure "src/Front/components/__init__.py" .empty,
   .ensure "src/Front/components/StageOne.py" .empty,
   .ensure "src/Front/components/StageTwo.py" .empty,
   .ensure "src/Front/components/StageThree.py" .empty,
   .mkdir "src/Front/Logging",
   .ensure "src/Front/Logging/__init__.py" .empty,
   .ensure "src/Front/Logging/logging.py" .loggingFront,
   .mkdir "src/Front/Exceptions",
   .ensure "src/Front/Exceptions/__init__.py" .empty,
   .ensure "src/Front/Exceptions/exceptions.py" .exceptionsFront,
   .mkdir "src/Front/Constants",
   .ensure "src/Front/Constants/__init__.py" .empty,
   .ensure "src/Front/Constants/constants.py" .empty,
   .mkdir "src/Front/Utils",
   .ensure "src/Front/Utils/__init__.py" .empty,
   .ensure "src/Front/Utils/utils.py" .empty,
   .mkdir "src/Back",
   .ensure "src/Back/__init__.py" .empty,
   .mkdir "src/Back/components",
   .ensure "src/Back/components/__init__.py" .empty,
   .ensure "src/Back/components/StageOne.py" .empty,
   .ensure "src/Back/components/StageTwo.py" .empty,
   .ensure "src/Back/components/StageThree.py" .empty,
   .mkdir "src/Back/Logging",
   .ensure "src/Back/Logging/__init__.py" .empty,
   .ensure "src/Back/Logging/logging.py" .loggingBack,
   .mkdir "src/Back/Exceptions",
   .ensure "src/Back/Exceptions/__init__.py" .empty,
   .ensure "src/Back/Exceptions/exceptions.py" .exceptionsBack,
   .mkdir "src/Back/Constants",
   .ensure "src/Back/Constants/__init__.py" .empty,
   .ensure "src/Back/Constants/constants.py" .empty,
   .mkdir "src/Back/Utils",
   .ensure "src/Back/Utils/__init__.py" .empty,
   .ensure "src/Back/Utils/utils.py" .empty]

/-- The file paths of the static skeleton descriptor, as the spec
enumerates them. -/
def skeletonFilePaths : List String :=
  ["configs/configuration.yml",
   "src/__init__.py",
   "src/Front/__init__.py",
   "src/Front/components/__init__.py",
   "src/Front/components/StageOne.py",
   "src/Front/components/StageTwo.py",
   "src/Front/components/StageThree.py",
   "src/Front/Logging/__init__.py",
   "src/Front/Logging/logging.py",
   "src/Front/Exceptions/__init__.py",
   "src/Front/Exceptions/exceptions.py",
   "src/Front/Constants/__init__.py",
   "src/Front/Constants/constants.py",
   "src/Front/Utils/__init__.py",
   "src/Front/Utils/utils.py",
   "src/Back/__init__.py",
   "src/Back/components/__init__.py",
   "src/Back/components/StageOne.py",
   "src/Back/components/StageTwo.py",
   "src/Back/components/StageThree.py",
   "src/Back/Logging/__init__.py",
   "src/Back/Logging/logging.py",
   "src/Back/Exceptions/__init__.py",
   "src/Back/Exceptions/exceptions.py",
   "src/Back/Constants/__init__.py",
   "src/Back/Constants/constants.py",
   "src/Back/Utils/__init__.py",
   "src/Back/Utils/utils.py"]

set_option maxRecDepth 8000 in
set_option maxHeartbeats 1000000 in
/-- The nested loops of `createSkeleton` perform exactly the operations of
`skeletonOps` in order. -/
theorem createSkeleton_eq_runOps (fs : FS) : createSkeleton fs = runOps fs skeletonOps := by
  simp only [createSkeleton, skeletonOps, runOps, applyOp, mainSubdirs, subdirsSpec,
    templateFor, List.foldl, String.reduceAppend, String.reduceEq, reduceIte]

/-- Content edits keeping every file in place: models arbitrary hand-edits
of file contents between two runs of the materializer. -/
def editFS (edit : String → FileContent → FileContent) (fs : FS) : FS :=
  { fs with files := fs.files.map (fun pc => (pc.1, edit pc.1 pc.2)) }

/-! The orchestrator. -/

/-- Exceptions of the Python code as the embedding distinguishes them. -/
inductive Exn
  | fileNotFound
  | readError
  | writeError
  | ioError
deriving DecidableEq

/-- Outcome of reading the requirements file (line 119-120 of setup.py). -/
inductive ReadOutcome
  | ok (lines : List String)
  | fileNotFound
  | otherErr
deriving DecidableEq

/-- The environment a run of `add_requirements_to_pyproject` interacts
with: the pyproject.toml on disk (absent when `none`), whether loading or
dumping it raises, the requirements-file read outcome, the exit-status
oracle of the external `uv add` command per invocation, which skeleton
operation (if any) raises an I/O error, and the initial file system. -/
structure Env where
  pyproject : Option Manifest
  readErr : Bool
  writeErr : Bool
  reqLines : ReadOutcome
  install : Nat → String → Bool
  skelFailAt : Option Nat
  fs0 : FS

/-- Observable result of a run: the returned boolean, the pyproject.toml
on disk afterwards, the final file system, and the specs passed to
`uv add`, in invocation order. -/
structure RunResult where
  ret : Bool
  pyproject : Option Manifest
  fs : FS
  invoked : List String
deriving DecidableEq

/-- Lines 97-101 of setup.py: the inner try around `toml.load`.  A missing
file (`FileNotFoundError`) is caught there and replaced by the minimal
default manifest; any other load error escapes to block 1's handler. -/
def loadManifest (env : Env) : Except Exn Manifest :=
  match env.pyproject with
  | none => Except.ok defaultManifest
  | some m => if env.readErr then Except.error Exn.readError else Except.ok m

/-- The body of block 1's try (lines 96-108 of setup.py): load or default
the manifest, clear its dependency list, and dump it back; the returned
manifest is the one now on disk. -/
def block1Body (env : Env) : Except Exn Manifest :=
  match loadManifest env with
  | .error e => .error e
  | .ok m =>
    if env.writeErr then .error Exn.writeError else .ok (clearManifest m)

/-- The whole of `add_requirements_to_pyproject` (setup.py lines 96-508).
The outer `Except` layer is the channel through which an uncaught Python
exception would escape to the caller; every handler of the source is
modelled, so every branch ends in `Except.ok`:
  - block 1's `except Exception` returns `False` with the disk unchanged;
  - block 6's `except FileNotFoundError` / `except Exception` catch the
    requirement-file read errors and return `False`;
  - the `except subprocess.CalledProcessError` inside the loop returns
    `False` as soon as one `uv add` exits non-zero (modelled inside
    `processLines`);
  - block 5's internal `except Exception` returns `False` when a skeleton
    operation raises, keeping the partially built tree. -/
def add_requirements_to_pyproject (env : Env) : Except Exn RunResult :=
  match block1Body env with
  | .error _ => .ok ⟨false, env.pyproject, env.fs0, []⟩
  | .ok m =>
    match env.reqLines with
    | .fileNotFound => .ok ⟨false, some m, env.fs0, []⟩
    | .otherErr => .ok ⟨false, some m, env.fs0, []⟩
    | .ok lines =>
      match processLines env.install 0 lines with
      | (inv, false) => .ok ⟨false, some m, env.fs0, inv⟩
      | (inv, true) =>
        match runOpsE env.fs0 env.skelFailAt 0 skeletonOps with
        | (fs1, true) => .ok ⟨true, some m, fs1, inv⟩
        | (fs1, false) => .ok ⟨false, some m, fs1, inv⟩

/-! Helper lemmas about the file-system model. -/

theorem files_makedirs (fs : FS) (d : String) : (fs.makedirs d).files = fs.files := by
  unfold FS.makedirs
  split <;> rfl

theorem fileExists_makedirs (fs : FS) (d p : String) :
    (fs.makedirs d).fileExists p = fs.fileExists p := by
  unfold FS.fileExists FS.lookupFile
  rw [files_makedirs]

theorem lookupAssoc_writeAssoc (l : List (String × FileContent)) (p q : String)
    (c : FileContent) :
    lookupAssoc (writeAssoc l p c) q = if p = q then some c else lookupAssoc l q := by
  induction l with
  | nil =>
    by_cases h : p = q <;> simp [writeAssoc, lookupAssoc, h]
  | cons hd tl ih =>
    obtain ⟨k, d⟩ := hd
    by_cases hk : k = p
    · subst hk
      by_cases h : k = q <;> simp [writeAssoc, lookupAssoc, h]
    · by_cases h : k = q
      · subst h
        have hpq : ¬ p = k := fun hh => hk hh.symm
        simp [writeAssoc, lookupAssoc, hk, hpq]
      · simp [writeAssoc, lookupAssoc, hk, h, ih]

theorem fileExists_write_self (fs : FS) (p : String) (c : FileContent) :
    (fs.write p c).fileExists p = true := by
  simp [FS.fileExists, FS.lookupFile, FS.write, lookupAssoc_writeAssoc]

theorem fileExists_write_mono (fs : FS) (p q : String) (c : FileContent)
    (h : fs.fileExists q = true) : (fs.write p c).fileExists q = true := by
  simp only [FS.fileExists, FS.lookupFile, FS.write, lookupAssoc_writeAssoc]
  split
  · rfl
  · exact h

theorem ensureFile_of_fileExists (fs : FS) (p : String) (c : FileContent)
    (h : fs.fileExists p = true) : ensureFile fs p c = fs := by
  simp [ensureFile, h]

theorem fileExists_ensureFile_self (fs : FS) (p : String) (c : FileContent) :
    (ensureFile fs p c).fileExists p = true := by
  unfold ensureFile
  split
  · assumption
  · exact fileExists_write_self fs p c

theorem fileExists_applyOp_mono (fs : FS) (op : SkelOp) (p : String)
    (h : fs.fileExists p = true) : (applyOp fs op).fileExists p = true := by
  cases op with
  | mkdir d =>
    show (fs.makedirs d).fileExists p = true
    rw [fileExists_makedirs]
    exact h
  | ensure q c =>
    show (ensureFile fs q c).fileExists p = true
    unfold ensureFile
    split
    · exact h
    · exact fileExists_write_mono fs q p c h

theorem runOps_fileExists_mono (ops : List SkelOp) (fs : FS) (p : String)
    (h : fs.fileExists p = true) : (runOps fs ops).fileExists p = true := by
  induction ops generalizing fs with
  | nil => exact h
  | cons op ops ih => exact ih (applyOp fs op) (fileExists_applyOp_mono fs op p h)

theorem runOps_fileExists_of_mem (ops : List SkelOp) (fs : FS) (p : String) (c : FileContent)
    (h : SkelOp.ensure p c ∈ ops) : (runOps fs ops).fileExists p = true := by
  induction ops generalizing fs with
  | nil => cases h
  | cons op ops ih =>
    rcases List.mem_cons.mp h with h1 | h2
    · subst h1
      exact runOps_fileExists_mono ops (applyOp fs (SkelOp.ensure p c)) p
        (fileExists_ensureFile_self fs p c)
    · exact ih (applyOp fs op) h2

theorem runOps_files_of_fileExists (ops : List SkelOp) (fs : FS)
    (h : ∀ p c, SkelOp.ensure p c ∈ ops → fs.fileExists p = true) :
    (runOps fs ops).files = fs.files := by
  induction ops generalizing fs with
  | nil => rfl
  | cons op ops ih =>
    cases op with
    | mkdir d =>
      rw [runOps, applyOp]
      rw [ih (fs.makedirs d) (fun p c hm => by
        rw [fileExists_makedirs]
        exact h p c (List.mem_cons_of_mem _ hm))]
      exact files_makedirs fs d
    | ensure q c =>
      rw [runOps, applyOp,
        ensureFile_of_fileExists fs q c (h q c (List.mem_cons_self _ _))]
      exact ih fs (fun p c' hm => h p c' (List.mem_cons_of_mem _ hm))

theorem runOpsE_true (ops : List SkelOp) (fs fs1 : FS) (failAt : Option Nat) (i : Nat)
    (h : runOpsE fs failAt i ops = (fs1, true)) : fs1 = runOps fs ops := by
  induction ops generalizing fs i with
  | nil =>
    rw [runOpsE] at h
    exact (Prod.mk.injEq _ _ _ _ ▸ h).1.symm
  | cons op ops ih =>
    rw [runOpsE] at h
    split at h
    · cases h
    · exact ih (applyOp fs op) (i + 1) h

/-- Does this operation create the file at path `p` when it is absent? -/
def opEnsures (p : String) : SkelOp → Bool
  | .mkdir _ => false
  | .ensure q _ => q == p

theorem exists_ensure_of_any (ops : List SkelOp) (p : String)
    (h : ops.any (opEnsures p) = true) : ∃ c, SkelOp.ensure p c ∈ ops := by
  induction ops with
  | nil => cases h
  | cons op ops ih =>
    rw [List.any_cons] at h
    cases op with
    | mkdir d =>
      simp only [opEnsures, Bool.false_or] at h
      rcases ih h with ⟨c, hc⟩
      exact ⟨c, List.mem_cons_of_mem _ hc⟩
    | ensure q c =>
      by_cases hq : q = p
      · subst hq
        exact ⟨c, List.mem_cons_self _ _⟩
      · have h2 : ops.any (opEnsures p) = true := by
          simpa [opEnsures, hq] using h
        rcases ih h2 with ⟨c', hc⟩
        exact ⟨c', List.mem_cons_of_mem _ hc⟩

theorem skeletonFilePaths_covered (p : String) (hp : p ∈ skeletonFilePaths) :
    ∃ c, SkelOp.ensure p c ∈ skeletonOps := by
  apply exists_ensure_of_any
  have hall : skeletonFilePaths.all (fun q => skeletonOps.any (opEnsures q)) = true := by decide
  exact List.all_eq_true.mp hall p hp

theorem lookupAssoc_map_isSome (edit : String → FileContent → FileContent)
    (l : List (String × FileContent)) (p : String) :
    (lookupAssoc (l.map (fun pc => (pc.1, edit pc.1 pc.2))) p).isSome
      = (lookupAssoc l p).isSome := by
  induction l with
  | nil => rfl
  | cons hd tl ih =>
    obtain ⟨k, d⟩ := hd
    by_cases h : k = p
    · simp [lookupAssoc, h]
    · simpa [lookupAssoc, h] using ih

theorem fileExists_editFS (edit : String → FileContent → FileContent) (fs : FS) (p : String) :
    (editFS edit fs).fileExists p = fs.fileExists p := by
  unfold editFS FS.fileExists FS.lookupFile
  exact lookupAssoc_map_isSome edit fs.files p

/-! Helper lemmas about the parser and the installation loop. -/

theorem string_mk_append (a b : List Char) :
    String.mk a ++ String.mk b = String.mk (a ++ b) := rfl

theorem string_append_empty (s : String) : s ++ "" = s := by
  obtain ⟨d⟩ := s
  show String.mk (d ++ []) = String.mk d
  rw [List.append_nil]

theorem matchPackage_reconstruct (s nm : String) (c : Option String)
    (h : matchPackage s = some (nm, c)) : nm ++ c.getD "" = s := by
  obtain ⟨sdata⟩ := s
  cases sdata with
  | nil => simp [matchPackage] at h
  | cons c0 rest =>
    simp only [matchPackage] at h
    by_cases ha : c0.isAlphanum
    · rw [if_pos ha] at h
      cases hd : rest.dropWhile isNameChar with
      | nil =>
        rw [hd] at h
        simp only [Option.some.injEq, Prod.mk.injEq] at h
        obtain ⟨hnm, hc⟩ := h
        subst hnm
        subst hc
        have htw : rest.takeWhile isNameChar = rest := by
          have h2 := List.takeWhile_append_dropWhile (p := isNameChar) (l := rest)
          rwa [hd, List.append_nil] at h2
        rw [Option.getD_none, string_append_empty, htw]
      | cons d t =>
        rw [hd] at h
        by_cases ho : isOpChar d
        · simp only [ho, if_true, Option.some.injEq, Prod.mk.injEq] at h
          obtain ⟨hnm, hc⟩ := h
          subst hnm
          subst hc
          have htw : rest.takeWhile isNameChar ++ (d :: t) = rest := by
            have h2 := List.takeWhile_append_dropWhile (p := isNameChar) (l := rest)
            rwa [hd] at h2
          simp only [Option.getD_some, string_mk_append, List.cons_append, htw]
        · simp [ho] at h
    · rw [if_neg ha] at h
      cases h

theorem takeWhile_dropWhile_split (p : Char → Bool) (xs ys : List Char) (y : Char)
    (hall : ∀ x ∈ xs, p x = true) (hy : p y = false) :
    (xs ++ y :: ys).takeWhile p = xs ∧ (xs ++ y :: ys).dropWhile p = y :: ys := by
  induction xs with
  | nil => simp [List.takeWhile_cons, List.dropWhile_cons, hy]
  | cons x xs ih =>
    have hx : p x = true := hall x (List.mem_cons_self _ _)
    have ih2 := ih (fun z hz => hall z (List.mem_cons_of_mem _ hz))
    simp only [List.cons_append, List.takeWhile_cons, List.dropWhile_cons, hx, if_true]
    exact ⟨by rw [ih2.1], by rw [ih2.2]⟩

theorem processLines_eq_installAll (install : Nat → String → Bool) (ls : List String)
    (i : Nat) :
    processLines install i ls = installAll install i (parseRequirements ls) := by
  induction ls generalizing i with
  | nil => rfl
  | cons l ls ih =>
    cases hp : parseLine l with
    | skip =>
      simp only [processLines, hp, parseRequirements, List.filterMap_cons, ParseResult.spec?]
      exact ih i
    | invalid =>
      simp only [processLines, hp, parseRequirements, List.filterMap_cons, ParseResult.spec?]
      exact ih i
    | req s =>
      simp only [processLines, hp, parseRequirements, List.filterMap_cons, ParseResult.spec?,
        installAll]
      by_cases hi : install i s
      · simp only [hi, if_true]
        rw [ih (i + 1)]
        rfl
      · simp only [hi]
        rw [if_neg (by simp [hi])]
        rw [if_neg (by simp [hi])]

theorem installAll_fail (install : Nat → String → Bool) (specs : List String) (i k : Nat)
    (hk : k < specs.length)
    (hsucc : ∀ j, j < k → install (i + j) (specs.getD j "") = true)
    (hfail : install (i + k) (specs.getD k "") = false) :
    installAll install i specs = (specs.take (k + 1), false) := by
  induction specs generalizing i k with
  | nil => exact absurd hk (Nat.not_lt_zero k)
  | cons s ss ih =>
    cases k with
    | zero =>
      have h0 : install i s = false := by simpa using hfail
      simp [installAll, h0]
    | succ k =>
      have h0 : install i s = true := by simpa using hsucc 0 (Nat.succ_pos k)
      have hrec := ih (i + 1) k (Nat.lt_of_succ_lt_succ hk)
        (fun j hj => by
          have hs := hsucc (j + 1) (Nat.succ_lt_succ hj)
          have harith : i + (j + 1) = i + 1 + j := by omega
          rw [harith] at hs
          simpa using hs)
        (by
          have hf := hfail
          have harith : i + (k + 1) = i + 1 + k := by omega
          rw [harith] at hf
          simpa using hf)
      simp [installAll, h0, hrec]

/-- Whatever happens after block 1 succeeds (requirements missing, install
failing, skeleton error), the pyproject.toml on disk is the manifest block
1 wrote. -/
theorem run_pyproject_of_block1 (env : Env) (m : Manifest) (r : RunResult)
    (hb : block1Body env = Except.ok m)
    (hr : add_requirements_to_pyproject env = Except.ok r) :
    r.pyproject = some m := by
  unfold add_requirements_to_pyproject at hr
  simp only [hb] at hr
  cases hl : env.reqLines with
  | fileNotFound =>
    simp only [hl] at hr
    obtain rfl := Except.ok.inj hr
    rfl
  | otherErr =>
    simp only [hl] at hr
    obtain rfl := Except.ok.inj hr
    rfl
  | ok lines =>
    simp only [hl] at hr
    rcases hpl : processLines env.install 0 lines with ⟨inv, b⟩
    rw [hpl] at hr
    cases b
    · obtain rfl := Except.ok.inj hr
      rfl
    · rcases hop : runOpsE env.fs0 env.skelFailAt 0 skeletonOps with ⟨fs1, ok1⟩
      rw [hop] at hr
      cases ok1
      · obtain rfl := Except.ok.inj hr
        rfl
      · obtain rfl := Except.ok.inj hr
        rfl

/-! Claim theorems. -/

/-- C1: dependency installation is fail-fast.  If, among the accepted
requirements of the file, the external install command exits zero on the
first k and non-zero on the (k+1)-st (index k), then the run returns the
failure value and the commands actually invoked are exactly the first
k+1 accepted requirements — requirements k+2..n are never attempted; a
zero exit status lets the batch continue to the next requirement. -/
theorem C1_fail_fast (env : Env) (m0 : Manifest) (lines : List String) (k : Nat)
    (r : RunResult)
    (hp : env.pyproject = some m0) (hre : env.readErr = false) (hwe : env.writeErr = false)
    (hl : env.reqLines = ReadOutcome.ok lines)
    (hk : k < (parseRequirements lines).length)
    (hsucc : ∀ j, j < k → env.install j ((parseRequirements lines).getD j "") = true)
    (hfail : env.install k ((parseRequirements lines).getD k "") = false)
    (hr : add_requirements_to_pyproject env = Except.ok r) :
    r.ret = false ∧ r.invoked = (parseRequirements lines).take (k + 1) := by
  have hb : block1Body env = Except.ok (clearManifest m0) := by
    simp [block1Body, loadManifest, hp, hre, hwe]
  have hpl : processLines env.install 0 lines
      = ((parseRequirements lines).take (k + 1), false) := by
    rw [processLines_eq_installAll]
    refine installAll_fail env.install (parseRequirements lines) 0 k hk ?_ ?_
    · intro j hj
      simpa using hsucc j hj
    · simpa using hfail
  unfold add_requirements_to_pyproject at hr
  simp only [hb, hl, hpl] at hr
  obtain rfl := Except.ok.inj hr
  exact ⟨rfl, rfl⟩

def wLines1 : List String := ["numpy", "bad line!", "pandas==1.2.3", "scipy"]

def wEnv1 : Env :=
  { pyproject := some defaultManifest, readErr := false, writeErr := false,
    reqLines := .ok wLines1, install := fun i _ => decide (i ≠ 1),
    skelFailAt := none, fs0 := emptyFS }

/-- Result of a run, with an arbitrary fallback for the (unreachable)
escaped-exception case. -/
def runResultOf (env : Env) : RunResult :=
  match add_requirements_to_pyproject env with
  | .ok r => r
  | .error _ => ⟨false, none, emptyFS, []⟩

theorem C1_fail_fast_witness :
    (runResultOf wEnv1).ret = false ∧
      (runResultOf wEnv1).invoked = (parseRequirements wLines1).take (1 + 1) :=
  C1_fail_fast wEnv1 defaultManifest wLines1 1 (runResultOf wEnv1) rfl rfl rfl rfl
    (by decide)
    (fun j hj => by
      have hj0 : j = 0 := by omega
      subst hj0
      decide)
    (by decide) rfl

/-- C2: the skeleton materializer is idempotent with respect to file
content.  Run it once on any file system, then modify the contents of any
files in place (hand edits); a second run leaves every file byte-for-byte
unchanged, because every file write is guarded by an existence check (and
directory creation uses `exist_ok=True`, so re-creating directories is not
an error and touches no file). -/
theorem C2_skeleton_idempotent (fs : FS) (edit : String → FileContent → FileContent) :
    (createSkeleton (editFS edit (createSkeleton fs))).files
      = (editFS edit (createSkeleton fs)).files := by
  simp only [createSkeleton_eq_runOps]
  apply runOps_files_of_fileExists
  intro p c hm
  rw [fileExists_editFS]
  exact runOps_fileExists_of_mem skeletonOps fs p c hm

/-- C3: for every input line whose stripped text is non-empty, is not a
comment, is newline-free (as every stripped readlines line is) and is
matched by the package pattern, the parser emits the package name
concatenated with the version constraint verbatim (or the name alone when
no constraint is present), exactly reconstructing the stripped specifier
text of the line. -/
theorem C3_parser_reconstructs (line nm : String) (c : Option String)
    (_hnl : '\n' ∉ (pyStrip line).data)
    (hne : (pyStrip line).data ≠ [])
    (hnc : (pyStrip line).data.head? ≠ some '#')
    (hm : matchPackage (pyStrip line) = some (nm, c)) :
    parseLine line = ParseResult.req (nm ++ c.getD "") ∧ nm ++ c.getD "" = pyStrip line := by
  refine ⟨?_, matchPackage_reconstruct _ _ _ hm⟩
  simp only [parseLine]
  rw [if_neg hne, if_neg hnc]
  simp only [hm]
  cases c with
  | none => rw [Option.getD_none, string_append_empty]
  | some vc => rfl

theorem C3_parser_reconstructs_witness :
    parseLine "  pandas>=1.2  " = ParseResult.req ("pandas" ++ (some ">=1.2").getD "") ∧
      "pandas" ++ (some ">=1.2").getD "" = pyStrip "  pandas>=1.2  " :=
  C3_parser_reconstructs "  pandas>=1.2  " "pandas" (some ">=1.2")
    (by decide) (by decide) (by decide) (by decide)

/-- C4: for every environment — requirements file present or absent,
manifest present, absent or malformed, installer succeeding or failing,
file-system errors during skeleton creation — the operation returns a
boolean success indicator and never lets an exception escape to its
caller: the returned `Except` value is `ok` in every case, each failure
mode having been caught and converted to the return value `False`. -/
theorem C4_no_exception_escapes (env : Env) :
    ∃ r : RunResult, add_requirements_to_pyproject env = Except.ok r := by
  unfold add_requirements_to_pyproject
  cases hb : block1Body env with
  | error e => exact ⟨_, rfl⟩
  | ok m =>
    cases hl : env.reqLines with
    | fileNotFound => exact ⟨_, rfl⟩
    | otherErr => exact ⟨_, rfl⟩
    | ok lines =>
      rcases hpl : processLines env.install 0 lines with ⟨inv, b⟩
      cases b
      · exact ⟨⟨false, some m, env.fs0, inv⟩, by simp only [hpl]⟩
      · rcases hop : runOpsE env.fs0 env.skelFailAt 0 skeletonOps with ⟨fs1, ok1⟩
        cases ok1
        · exact ⟨⟨false, some m, fs1, inv⟩, by simp only [hpl, hop]⟩
        · exact ⟨⟨true, some m, fs1, inv⟩, by simp only [hpl, hop]⟩

/-- C5: on every run in which block 1 completes (manifest readable or
absent, dump succeeding), the manifest persisted to pyproject.toml is the
loaded manifest with its `project.dependencies` forced to the empty list —
regardless of what the dependency list previously contained, and even when
the loaded manifest lacked a project table or a dependencies field.  The
persisted value is fixed before and independently of requirement
processing: the conclusion holds for every requirement-file content,
installer behavior and skeleton outcome in the environment. -/
theorem C5_deps_cleared_and_persisted (env : Env) (m0 : Manifest) (r : RunResult)
    (hp : env.pyproject = some m0) (hre : env.readErr = false) (hwe : env.writeErr = false)
    (hr : add_requirements_to_pyproject env = Except.ok r) :
    r.pyproject = some (clearManifest m0) ∧
      (clearManifest m0).project.map Project.dependencies = some (some []) := by
  have hb : block1Body env = Except.ok (clearManifest m0) := by
    simp [block1Body, loadManifest, hp, hre, hwe]
  exact ⟨run_pyproject_of_block1 env _ r hb hr, rfl⟩

def wEnv5 : Env :=
  { pyproject := some ⟨none⟩, readErr := false, writeErr := false,
    reqLines := .ok ["numpy"], install := fun _ _ => true,
    skelFailAt := none, fs0 := emptyFS }

theorem C5_deps_cleared_and_persisted_witness :
    (runResultOf wEnv5).pyproject = some (clearManifest ⟨none⟩) ∧
      (clearManifest (⟨none⟩ : Manifest)).project.map Project.dependencies
        = some (some []) :=
  C5_deps_cleared_and_persisted wEnv5 ⟨none⟩ (runResultOf wEnv5) rfl rfl rfl rfl

/-- C6: when pyproject.toml is absent, the normalizer does not fail: it
synthesizes the default manifest (project name `my-project`, version
`0.1.0`, empty dependency list), block 1 succeeds and persists it (so the
run continues into requirement ingestion), and the manifest on disk after
the run is that default. -/
theorem C6_absent_manifest_defaults (env : Env) (r : RunResult)
    (hp : env.pyproject = none) (hwe : env.writeErr = false)
    (hr : add_requirements_to_pyproject env = Except.ok r) :
    block1Body env = Except.ok defaultManifest ∧
      r.pyproject = some defaultManifest ∧
      defaultManifest
        = ⟨some ⟨some "my-project", some "0.1.0", some []⟩⟩ := by
  have hb : block1Body env = Except.ok defaultManifest := by
    simp [block1Body, loadManifest, hp, hwe]
    rfl
  exact ⟨hb, run_pyproject_of_block1 env _ r hb hr, rfl⟩

def wEnv6 : Env :=
  { pyproject := none, readErr := false, writeErr := false,
    reqLines := .ok ["numpy"], install := fun _ _ => true,
    skelFailAt := none, fs0 := emptyFS }

theorem C6_absent_manifest_defaults_witness :
    block1Body wEnv6 = Except.ok defaultManifest ∧
      (runResultOf wEnv6).pyproject = some defaultManifest ∧
      defaultManifest
        = ⟨some ⟨some "my-project", some "0.1.0", some []⟩⟩ :=
  C6_absent_manifest_defaults wEnv6 (runResultOf wEnv6) rfl rfl rfl

/-- C7: after a run that returns True, every path enumerated in the static
skeleton descriptor exists on disk — configs/configuration.yml,
src/__init__.py, an __init__.py for each of Front and Back, and under each
of Front and Back the five subdirectories components, Logging, Exceptions,
Constants and Utils, each with its __init__.py and its named files. -/
theorem C7_skeleton_paths_exist (env : Env) (r : RunResult)
    (hr : add_requirements_to_pyproject env = Except.ok r) (hret : r.ret = true) :
    ∀ p ∈ skeletonFilePaths, r.fs.fileExists p = true := by
  unfold add_requirements_to_pyproject at hr
  cases hb : block1Body env with
  | error e =>
    rw [hb] at hr
    obtain rfl := Except.ok.inj hr
    exact Bool.noConfusion hret
  | ok m =>
    simp only [hb] at hr
    cases hl : env.reqLines with
    | fileNotFound =>
      simp only [hl] at hr
      obtain rfl := Except.ok.inj hr
      exact Bool.noConfusion hret
    | otherErr =>
      simp only [hl] at hr
      obtain rfl := Except.ok.inj hr
      exact Bool.noConfusion hret
    | ok lines =>
      simp only [hl] at hr
      rcases hpl : processLines env.install 0 lines with ⟨inv, b⟩
      rw [hpl] at hr
      cases b
      · obtain rfl := Except.ok.inj hr
        exact Bool.noConfusion hret
      · rcases hop : runOpsE env.fs0 env.skelFailAt 0 skeletonOps with ⟨fs1, ok1⟩
        rw [hop] at hr
        cases ok1
        · obtain rfl := Except.ok.inj hr
          exact Bool.noConfusion hret
        · obtain rfl := Except.ok.inj hr
          intro p hp
          have hfs : fs1 = runOps env.fs0 skeletonOps :=
            runOpsE_true skeletonOps env.fs0 fs1 env.skelFailAt 0 hop
          rcases skeletonFilePaths_covered p hp with ⟨c, hc⟩
          show fs1.fileExists p = true
          rw [hfs]
          exact runOps_fileExists_of_mem skeletonOps env.fs0 p c hc

def wEnv7 : Env :=
  { pyproject := none, readErr := false, writeErr := false,
    reqLines := .ok [], install := fun _ _ => true,
    skelFailAt := none, fs0 := emptyFS }

theorem C7_skeleton_paths_exist_witness :
    (runResultOf wEnv7).ret = true ∧
      skeletonFilePaths.all (fun p => (runResultOf wEnv7).fs.fileExists p) = true := by
  constructor
  · decide
  · exact List.all_eq_true.mpr
      (fun p hp => C7_skeleton_paths_exist wEnv7 (runResultOf wEnv7) rfl (by decide) p hp)

/-- C8: for the requirement-file content consisting of the four lines
numpy, a comment line, an empty line, and pandas==1.2.3, the parser
produces exactly the sequence ["numpy", "pandas==1.2.3"] in that order,
while the blank and comment-prefixed lines are skipped (no requirement and
no invalid-line diagnostic). -/
theorem C8_concrete_parse :
    parseRequirements (readLines "numpy\n# comment\n\npandas==1.2.3")
        = ["numpy", "pandas==1.2.3"] ∧
      parseLine "# comment\n" = ParseResult.skip ∧
      parseLine "\n" = ParseResult.skip := by
  decide

/-- C9: the manifest is cleared before the requirements file is read, with
no rollback across phases: when block 1 succeeds but the requirements file
is absent, the operation returns False, no install command is invoked, the
file system is untouched — and yet the pyproject.toml on disk has already
been rewritten with its dependency list cleared. -/
theorem C9_clear_persists_without_requirements (env : Env) (m0 : Manifest) (r : RunResult)
    (hp : env.pyproject = some m0) (hre : env.readErr = false) (hwe : env.writeErr = false)
    (hl : env.reqLines = ReadOutcome.fileNotFound)
    (hr : add_requirements_to_pyproject env = Except.ok r) :
    r.ret = false ∧ r.pyproject = some (clearManifest m0) ∧
      r.invoked = [] ∧ r.fs = env.fs0 := by
  have hb : block1Body env = Except.ok (clearManifest m0) := by
    simp [block1Body, loadManifest, hp, hre, hwe]
  unfold add_requirements_to_pyproject at hr
  simp only [hb, hl] at hr
  obtain rfl := Except.ok.inj hr
  exact ⟨rfl, rfl, rfl, rfl⟩

def wEnv9 : Env :=
  { pyproject := some ⟨some ⟨some "demo", none, some ["old-dep==1.0"]⟩⟩,
    readErr := false, writeErr := false,
    reqLines := .fileNotFound, install := fun _ _ => true,
    skelFailAt := none, fs0 := emptyFS }

theorem C9_clear_persists_without_requirements_witness :
    (runResultOf wEnv9).ret = false ∧
      (runResultOf wEnv9).pyproject
        = some (clearManifest ⟨some ⟨some "demo", none, some ["old-dep==1.0"]⟩⟩) ∧
      (runResultOf wEnv9).invoked = [] ∧ (runResultOf wEnv9).fs = wEnv9.fs0 :=
  C9_clear_persists_without_requirements wEnv9
    ⟨some ⟨some "demo", none, some ["old-dep==1.0"]⟩⟩ (runResultOf wEnv9)
    rfl rfl rfl rfl rfl

/-- C10: a line made of a valid package name followed by a space and
further text — an inline comment such as `numpy  # pinned` — fails the
anchored name/version pattern as a whole, so the parser reports the line
invalid (skipping it with a diagnostic) and the batch continues with the
remaining lines instead of installing the leading name. -/
theorem C10_inline_comment_rejected (line rest : String) (c0 : Char) (cs : List Char)
    (hsplit : (pyStrip line).data = c0 :: (cs ++ ' ' :: rest.data))
    (hc0 : c0.isAlphanum = true)
    (hcs : ∀ c ∈ cs, isNameChar c = true) :
    parseLine line = ParseResult.invalid ∧
      ∀ (install : Nat → String → Bool) (i : Nat) (ls : List String),
        processLines install i (line :: ls) = processLines install i ls := by
  have hsp := takeWhile_dropWhile_split isNameChar cs rest.data ' ' hcs (by decide)
  have hmp : matchPackage (pyStrip line) = none := by
    simp only [matchPackage, hsplit, hc0, if_true, hsp.2]
    simp [isOpChar]
  have hne : (pyStrip line).data ≠ [] := by
    rw [hsplit]
    exact List.cons_ne_nil _ _
  have hnc : (pyStrip line).data.head? ≠ some '#' := by
    rw [hsplit]
    intro hcontra
    have hcc : c0 = '#' := Option.some.inj (by simpa using hcontra)
    rw [hcc] at hc0
    exact absurd hc0 (by decide)
  have hinv : parseLine line = ParseResult.invalid := by
    simp only [parseLine]
    rw [if_neg hne, if_neg hnc, hmp]
  refine ⟨hinv, ?_⟩
  intro install i ls
  simp only [processLines, hinv]

theorem C10_inline_comment_rejected_witness :
    parseLine "numpy  # pinned" = ParseResult.invalid ∧
      ∀ (install : Nat → String → Bool) (i : Nat) (ls : List String),
        processLines install i ("numpy  # pinned" :: ls) = processLines install i ls :=
  C10_inline_comment_rejected "numpy  # pinned" " # pinned" 'n' ['u', 'm', 'p', 'y']
    (by decide) (by decide)
    (by
      intro c hc
      fin_cases hc <;> decide)
